/-
Verification of the style-guidelines correction pipeline.

The Python sources embedded here (shallowly) are:
  * `src/app/processor/document_processor.py` (`DocumentProcessor`):
    `corrections_map`, `apply_style_corrections`, `replace_clinical_term`,
    `chunk_text`, `process_style_guide`, `process_csr`.
  * `src/document_processor.py` (`StyleGuideProcessor`):
    `extract_sections`, `extract_examples`, `identify_rule_type`,
    `preprocess_pdf`, `apply_style_rules`, `process_csr_document`.
  * `src/app/processor/rule_extractor.py` (`RuleExtractor`):
    `rule_patterns`, `category_keywords`, `extract_rules`,
    `_determine_rule_type` (here `determine_rule_type`),
    `_determine_rule_category` (here `determine_rule_category`).

Regular expressions are interpreted by a small backtracking engine
(`mtch` / `reSub` / `findAll`) with Python `re` semantics restricted to the
constructs the sources use (literals, classes, `\b \d \s \w`, `^ $ .`,
alternation, greedy/lazy `* + ?`, named/numbered groups, `(?: )`, `(?! )`,
IGNORECASE).  `\d`, `\s`, `\w`, case mapping and `str.strip`/`lower` are
modelled with their ASCII meaning, which agrees with Python on every string
appearing in the repository and in the claims.
-/
import Mathlib

set_option maxRecDepth 20000

namespace StyleRepo

/-! ### Python string primitives (ASCII semantics) -/

/-- Python whitespace as used by `str.strip`/`\s` (ASCII subset). -/
def pyWS (c : Char) : Bool :=
  c == ' ' || c == '\t' || c == '\n' || c == '\r' || c == Char.ofNat 11 || c == Char.ofNat 12

/-- `str.strip()` on a character list. -/
def stripL (l : List Char) : List Char :=
  ((l.dropWhile pyWS).reverse.dropWhile pyWS).reverse

/-- `str.strip()`. -/
def stripS (s : String) : String := ⟨stripL s.data⟩

/-- `str.lower()` (ASCII). -/
def lowerStr (s : String) : String := ⟨s.data.map Char.toLower⟩

/-- `str.upper()` (ASCII). -/
def upperStr (s : String) : String := ⟨s.data.map Char.toUpper⟩

/-- `needle in hay` (Python substring containment). -/
def isSubL (needle : List Char) : List Char → Bool
  | [] => needle.isEmpty
  | c :: t => needle.isPrefixOf (c :: t) || isSubL needle t

/-- `needle in hay` on strings. -/
def substrB (hay needle : String) : Bool := isSubL needle.data hay.data

/-- `hay.find(needle)` (first index, `none` for Python's `-1`). -/
def findIdx (needle : List Char) : List Char → Option Nat
  | [] => if needle.isEmpty then some 0 else none
  | c :: t => if needle.isPrefixOf (c :: t) then some 0 else (findIdx needle t).map (· + 1)

/-- Case-insensitive `hay.lower().find(needle.lower())` on strings. -/
def findLowerS (hay needle : String) : Option Nat :=
  findIdx (needle.data.map Char.toLower) (hay.data.map Char.toLower)

/-- `str.split()` with no argument: split on whitespace runs, no empty parts. -/
def pysplitGo : List Char → List Char → List (List Char)
  | [], cur => if cur.isEmpty then [] else [cur.reverse]
  | c :: t, cur =>
      if pyWS c then
        if cur.isEmpty then pysplitGo t [] else cur.reverse :: pysplitGo t []
      else pysplitGo t (c :: cur)

/-- `str.split()` on strings. -/
def pysplit (s : String) : List String := (pysplitGo s.data []).map String.mk

/-- Remove every whitespace character (used to state "ignoring whitespace"). -/
def removeWS (s : String) : String := ⟨s.data.filter (fun c => !pyWS c)⟩

/-! ### Regular-expression engine -/

/-- Regex abstract syntax (the subset used by the repository). -/
inductive RE where
  | eps
  | chr (c : Char)
  | any                                   -- `.` (anything but newline)
  | cls (neg : Bool) (items : List (Char × Char))  -- `[...]`, ranges inclusive
  | wordB                                 -- `\b`
  | bol                                   -- `^`
  | eos                                   -- `$`
  | seq (a b : RE)
  | alt (a b : RE)
  | star (lazy : Bool) (a : RE)
  | opt (lazy : Bool) (a : RE)
  | group (nm : String) (a : RE)
  | nla (a : RE)                          -- `(?!...)`
deriving Repr

/-- Word character for `\b` / `\w` (ASCII). -/
def isWordChar (c : Char) : Bool := c.isAlphanum || c == '_'

/-- Single pattern character against an input character (IGNORECASE aware). -/
def charMatches (ic : Bool) (p c : Char) : Bool :=
  p == c || (ic && p.toLower == c.toLower)

/-- Character-class membership (IGNORECASE aware, as Python folds case). -/
def clsMatches (ic : Bool) (neg : Bool) (items : List (Char × Char)) (c : Char) : Bool :=
  let mem := fun (x : Char) => items.any (fun p => p.1 ≤ x && x ≤ p.2)
  let hit := mem c || (ic && (mem c.toLower || mem c.toUpper))
  if neg then !hit else hit

/-- Captured groups, most recent binding first (Python keeps the last match). -/
abbrev Groups := List (String × List Char)

/-- Backtracking matcher.  Outcomes are listed in Python's priority order
(first element = the match Python's engine would pick); an outcome is
`(last consumed char or the inherited one, remaining input, groups)`.
`prev` is the character immediately before the current position (`none`
at the very start), used by `\b` and `^`. -/
def mtch : Nat → Bool → RE → Option Char → List Char → Groups →
    List (Option Char × List Char × Groups)
  | 0, _, _, _, _, _ => []
  | Nat.succ fuel, ic, r, prev, s, g =>
    match r with
    | .eps => [(prev, s, g)]
    | .chr p =>
        match s with
        | [] => []
        | c :: rest => if charMatches ic p c then [(some c, rest, g)] else []
    | .any =>
        match s with
        | [] => []
        | c :: rest => if c == '\n' then [] else [(some c, rest, g)]
    | .cls neg items =>
        match s with
        | [] => []
        | c :: rest => if clsMatches ic neg items c then [(some c, rest, g)] else []
    | .wordB =>
        let before := match prev with | none => false | some c => isWordChar c
        let after := match s with | [] => false | c :: _ => isWordChar c
        if before != after then [(prev, s, g)] else []
    | .bol =>
        match prev with
        | none => [(prev, s, g)]
        | some c => if c == '\n' then [(prev, s, g)] else []
    | .eos =>
        match s with
        | [] => [(prev, s, g)]
        | ['\n'] => [(prev, s, g)]
        | _ => []
    | .seq a b =>
        (mtch fuel ic a prev s g).flatMap (fun o => mtch fuel ic b o.1 o.2.1 o.2.2)
    | .alt a b => mtch fuel ic a prev s g ++ mtch fuel ic b prev s g
    | .star lz a =>
        let more := (mtch fuel ic a prev s g).flatMap (fun o =>
          if o.2.1.length == s.length then []
          else mtch fuel ic (.star lz a) o.1 o.2.1 o.2.2)
        if lz then (prev, s, g) :: more else more ++ [(prev, s, g)]
    | .opt lz a =>
        let one := mtch fuel ic a prev s g
        if lz then (prev, s, g) :: one else one ++ [(prev, s, g)]
    | .group nm a =>
        (mtch fuel ic a prev s g).map (fun o =>
          (o.1, o.2.1, (nm, s.take (s.length - o.2.1.length)) :: o.2.2))
    | .nla a =>
        if (mtch fuel ic a prev s g).isEmpty then [(prev, s, g)] else []

/-- Structural size of a regex, used only to compute a sufficient fuel. -/
def reSize : RE → Nat
  | .eps | .chr _ | .any | .cls _ _ | .wordB | .bol | .eos => 1
  | .seq a b | .alt a b => reSize a + reSize b + 1
  | .star _ a | .opt _ a | .group _ a | .nla a => reSize a + 1

/-- Fuel that dominates the depth of any backtracking search. -/
def mtchFuel (r : RE) (s : List Char) : Nat := (reSize r + 2) * (s.length + 2)

/-- The data Python hands to a replacement callable / template. -/
structure MatchData where
  group0 : String
  groups : List (String × String)

/-- `m.group(name)`, empty string when absent (safe for every use below). -/
def MatchData.grp (m : MatchData) (nm : String) : String :=
  ((m.groups.find? (fun p => p.1 == nm)).map Prod.snd).getD ""

/-- `m.group(name)` as an option: `none` both when the pattern has no such
group and when the group did not participate in the match (Python raises /
returns `None` in those cases, which `extract_rules` catches and skips). -/
def MatchData.grpOpt (m : MatchData) (nm : String) : Option String :=
  (m.groups.find? (fun p => p.1 == nm)).map Prod.snd

/-- A `re.sub` replacement: a template string or a function of the match. -/
inductive Repl where
  | tmpl (t : String)
  | fn (f : MatchData → String)

/-- Template expansion: `\1`, `\2`, … refer to numbered groups. -/
def expandTmpl : List Char → List (String × String) → List Char
  | [], _ => []
  | '\\' :: d :: t, gs =>
      if d.isDigit then
        (((gs.find? (fun p => p.1 == String.singleton d)).map Prod.snd).getD "").data
          ++ expandTmpl t gs
      else '\\' :: d :: expandTmpl t gs
  | c :: t, gs => c :: expandTmpl t gs

/-- Build the `MatchData` from the consumed input and raw groups. -/
def mkMD (consumed : List Char) (g : Groups) : MatchData :=
  ⟨⟨consumed⟩, g.map (fun p => (p.1, ⟨p.2⟩))⟩

/-- Expand a replacement for one match. -/
def expandRepl (rep : Repl) (m : MatchData) : List Char :=
  match rep with
  | .tmpl t => expandTmpl t.data m.groups
  | .fn f => (f m).data

/-- The scanning loop of `re.sub`: leftmost non-overlapping matches, each
replaced by the expanded replacement; a zero-width match is substituted and
the following character copied (Python ≥ 3.7 semantics). -/
def scanSub (ic : Bool) (r : RE) (rep : Repl) : Nat → Option Char → List Char → List Char
  | 0, _, s => s
  | Nat.succ fuel, prev, s =>
    match mtch (mtchFuel r s) ic r prev s [] with
    | [] =>
        match s with
        | [] => []
        | c :: t => c :: scanSub ic r rep fuel (some c) t
    | o :: _ =>
        let consumed := s.take (s.length - o.2.1.length)
        let out := expandRepl rep (mkMD consumed o.2.2)
        if consumed.isEmpty then
          match s with
          | [] => out
          | c :: t => out ++ c :: scanSub ic r rep fuel (some c) t
        else out ++ scanSub ic r rep fuel o.1 o.2.1

/-- `re.sub(pattern, repl, s)` (with `count = 0`). -/
def reSub (ic : Bool) (r : RE) (rep : Repl) (s : String) : String :=
  ⟨scanSub ic r rep (s.data.length + 1) none s.data⟩

/-- The scanning loop of `re.finditer`, collecting the matches. -/
def scanAll (ic : Bool) (r : RE) : Nat → Option Char → List Char → List MatchData
  | 0, _, _ => []
  | Nat.succ fuel, prev, s =>
    match mtch (mtchFuel r s) ic r prev s [] with
    | [] =>
        match s with
        | [] => []
        | c :: t => scanAll ic r fuel (some c) t
    | o :: _ =>
        let consumed := s.take (s.length - o.2.1.length)
        let md := mkMD consumed o.2.2
        if consumed.isEmpty then
          match s with
          | [] => [md]
          | _ :: t => md :: scanAll ic r fuel o.1 t
        else md :: scanAll ic r fuel o.1 o.2.1

/-- `re.finditer(pattern, s)` as a list of matches. -/
def findAll (ic : Bool) (r : RE) (s : String) : List MatchData :=
  scanAll ic r (s.data.length + 1) none s.data

/-- `re.match(pattern, s)`: a match anchored at the start, if any. -/
def reMatch (ic : Bool) (r : RE) (s : String) : Option MatchData :=
  match mtch (mtchFuel r s.data) ic r none s.data [] with
  | [] => none
  | o :: _ => some (mkMD (s.data.take (s.data.length - o.2.1.length)) o.2.2)

/-! ### Regex pattern parser (Python `re` syntax, the constructs used here) -/

/-- Whitespace class items for `\s`. -/
def wsItems : List (Char × Char) :=
  [(' ', ' '), ('\t', '\t'), ('\n', '\n'), ('\r', '\r'),
   (Char.ofNat 11, Char.ofNat 11), (Char.ofNat 12, Char.ofNat 12)]

/-- Class items for `\d`. -/
def digitItems : List (Char × Char) := [('0', '9')]

/-- Class items for `\w`. -/
def wordItems : List (Char × Char) := [('a', 'z'), ('A', 'Z'), ('0', '9'), ('_', '_')]

/-- Read one (possibly escaped) literal character inside `[...]`. -/
def clsChar : List Char → Option (Char × List Char)
  | '\\' :: 'n' :: t => some ('\n', t)
  | '\\' :: c :: t => some (c, t)
  | ']' :: _ => none
  | c :: t => some (c, t)
  | [] => none

/-- Parse the items of a character class up to the closing `]`. -/
def parseClsItems : Nat → List Char → Option (List (Char × Char) × List Char)
  | 0, _ => none
  | Nat.succ fuel, l =>
    match l with
    | ']' :: t => some ([], t)
    | '\\' :: 's' :: t =>
        (parseClsItems fuel t).map (fun p => (wsItems ++ p.1, p.2))
    | '\\' :: 'd' :: t =>
        (parseClsItems fuel t).map (fun p => (digitItems ++ p.1, p.2))
    | _ =>
      match clsChar l with
      | none => none
      | some (c1, t1) =>
        match t1 with
        | '-' :: ']' :: t2 =>
            (parseClsItems fuel (']' :: t2)).map (fun p => ((c1, c1) :: ('-', '-') :: p.1, p.2))
        | '-' :: t2 =>
            match clsChar t2 with
            | none => none
            | some (c2, t3) => (parseClsItems fuel t3).map (fun p => ((c1, c2) :: p.1, p.2))
        | _ => (parseClsItems fuel t1).map (fun p => ((c1, c1) :: p.1, p.2))

/-- `.seq` that drops a trailing `eps`. -/
def seqOpt (a b : RE) : RE :=
  match b with
  | .eps => a
  | _ => .seq a b

/-- Apply a `* + ?` postfix (with optional lazy `?`) to an atom. -/
def applyPostfix (a : RE) (l : List Char) : RE × List Char :=
  match l with
  | '*' :: '?' :: t => (.star true a, t)
  | '*' :: t => (.star false a, t)
  | '+' :: '?' :: t => (.seq a (.star true a), t)
  | '+' :: t => (.seq a (.star false a), t)
  | '?' :: '?' :: t => (.opt true a, t)
  | '?' :: t => (.opt false a, t)
  | _ => (a, l)

/-- Recursive-descent parser.  `mode 0` = alternation, `mode 1` = sequence,
`mode 2` = single atom with postfix.  `g` counts capturing groups so plain
groups get Python's numbers `1, 2, …` as their names. -/
def parseStep : Nat → Nat → Nat → List Char → Option (RE × Nat × List Char)
  | 0, _, _, _ => none
  | Nat.succ fuel, 0, g, l => do
      let (a, g1, l1) ← parseStep fuel 1 g l
      match l1 with
      | '|' :: t => do
          let (b, g2, l2) ← parseStep fuel 0 g1 t
          pure (.alt a b, g2, l2)
      | _ => pure (a, g1, l1)
  | Nat.succ fuel, 1, g, l =>
      match l with
      | [] => some (.eps, g, [])
      | ')' :: _ => some (.eps, g, l)
      | '|' :: _ => some (.eps, g, l)
      | _ => do
          let (a, g1, l1) ← parseStep fuel 2 g l
          let (b, g2, l2) ← parseStep fuel 1 g1 l1
          pure (seqOpt a b, g2, l2)
  | Nat.succ fuel, _, g, l =>
      match l with
      | '(' :: '?' :: ':' :: t => do
          let (a, g1, l1) ← parseStep fuel 0 g t
          match l1 with
          | ')' :: t1 =>
              let (r, rest) := applyPostfix a t1
              pure (r, g1, rest)
          | _ => none
      | '(' :: '?' :: '!' :: t => do
          let (a, g1, l1) ← parseStep fuel 0 g t
          match l1 with
          | ')' :: t1 =>
              let (r, rest) := applyPostfix (RE.nla a) t1
              pure (r, g1, rest)
          | _ => none
      | '(' :: '?' :: 'P' :: '<' :: t => do
          let nm := t.takeWhile (fun c => c != '>')
          let t' := (t.dropWhile (fun c => c != '>')).drop 1
          let (a, g1, l1) ← parseStep fuel 0 (g + 1) t'
          match l1 with
          | ')' :: t1 =>
              let (r, rest) := applyPostfix (RE.group ⟨nm⟩ a) t1
              pure (r, g1, rest)
          | _ => none
      | '(' :: t => do
          let n := g + 1
          let (a, g1, l1) ← parseStep fuel 0 n t
          match l1 with
          | ')' :: t1 =>
              let (r, rest) := applyPostfix (RE.group (toString n) a) t1
              pure (r, g1, rest)
          | _ => none
      | '[' :: '^' :: t => do
          let (items, rest) ← parseClsItems (t.length + 1) t
          let (r, rest') := applyPostfix (RE.cls true items) rest
          pure (r, g, rest')
      | '[' :: t => do
          let (items, rest) ← parseClsItems (t.length + 1) t
          let (r, rest') := applyPostfix (RE.cls false items) rest
          pure (r, g, rest')
      | '.' :: t =>
          let (r, rest) := applyPostfix RE.any t
          pure (r, g, rest)
      | '$' :: t =>
          let (r, rest) := applyPostfix RE.eos t
          pure (r, g, rest)
      | '^' :: t =>
          let (r, rest) := applyPostfix RE.bol t
          pure (r, g, rest)
      | '\\' :: 'b' :: t =>
          let (r, rest) := applyPostfix RE.wordB t
          pure (r, g, rest)
      | '\\' :: 'd' :: t =>
          let (r, rest) := applyPostfix (RE.cls false digitItems) t
          pure (r, g, rest)
      | '\\' :: 's' :: t =>
          let (r, rest) := applyPostfix (RE.cls false wsItems) t
          pure (r, g, rest)
      | '\\' :: 'w' :: t =>
          let (r, rest) := applyPostfix (RE.cls false wordItems) t
          pure (r, g, rest)
      | '\\' :: 'n' :: t =>
          let (r, rest) := applyPostfix (RE.chr '\n') t
          pure (r, g, rest)
      | '\\' :: c :: t =>
          let (r, rest) := applyPostfix (RE.chr c) t
          pure (r, g, rest)
      | c :: t =>
          let (r, rest) := applyPostfix (RE.chr c) t
          pure (r, g, rest)
      | [] => none

/-- A regex that matches nothing (used for the unreachable parse-failure case). -/
def neverRE : RE := .cls false []

/-- Compile a pattern string to its AST (`neverRE` on a parse failure; every
pattern in the repository parses, as the concrete evaluations below confirm). -/
def compile (pat : String) : RE :=
  match parseStep (4 * pat.data.length + 16) 0 0 pat.data with
  | some (r, _, []) => r
  | _ => neverRE

/-- Strip an inline `(?i)` flag (Python scoped-global IGNORECASE), returning
the flag and the compiled remainder. -/
def compileFlagged (pat : String) : Bool × RE :=
  if "(?i)".data.isPrefixOf pat.data then (true, compile ⟨pat.data.drop 4⟩)
  else (false, compile pat)

/-! ### `DocumentProcessor.corrections_map`
(`src/app/processor/document_processor.py`, lines 22–105, in dict insertion
order).  String values become `Repl.tmpl`, lambdas become `Repl.fn`. -/

def corrections_map : List (String × Repl) := [
  -- Clinical Terms (ordered by specificity)
  ("\\btreatment[- ]emergent\\s+adverse\\s+event(?!\\s*\\([TEAE]+\\))",
    .tmpl "treatment-emergent adverse event (TEAE)"),
  ("\\bserious\\s+adverse\\s+event(?!\\s*\\([SAE]+\\))", .tmpl "serious adverse event (SAE)"),
  ("\\badverse\\s+event(?!\\s*\\([AE]+\\))", .tmpl "adverse event (AE)"),
  ("\\badverse\\s+drug\\s+reaction(?!\\s*\\([ADR]+\\))", .tmpl "adverse drug reaction (ADR)"),
  ("\\binvestigational\\s+product(?!\\s*\\([IP]+\\))", .tmpl "investigational product (IP)"),
  ("\\bconcomitant\\s+medication(?!\\s*\\([CM]+\\))", .tmpl "concomitant medication (CM)"),
  ("\\bquality\\s+of\\s+life(?!\\s*\\([QoL]+\\))", .tmpl "quality of life (QoL)"),
  -- Statistical Terms
  ("\\bp-value\\b", .tmpl "P value"),
  ("\\b(\\d+%?\\s*)ci\\b", .tmpl "\\1CI"),
  ("\\b(mean|median)\\s*\\((sd|se)\\)",
    .fn (fun m => m.grp "1" ++ " (" ++ upperStr (m.grp "2") ++ ")")),
  ("\\bitt\\b", .tmpl "ITT"),
  ("\\bpp\\b", .tmpl "PP"),
  ("\\bodds\\s+ratio(?!\\s*\\([OR]+\\))", .tmpl "odds ratio (OR)"),
  ("\\bhazard\\s+ratio(?!\\s*\\([HR]+\\))", .tmpl "hazard ratio (HR)"),
  ("\\b(standard\\s+error|mean|median)\\s*\\((sd|se)\\)",
    .fn (fun m => m.grp "1" ++ " (" ++ upperStr (m.grp "2") ++ ")")),
  -- Units and Numbers
  ("(\\d+)(\\s*(?:mg|mL|L|kg|cm))\\b", .tmpl "\\1 \\2"),  -- Add space between number and unit
  ("(\\d+)\\s*ml\\b", .tmpl "\\1 mL"),
  ("(\\d+)\\s*l\\b", .tmpl "\\1 L"),
  ("(\\d+)\\s*mg\\b", .tmpl "\\1 mg"),
  ("(\\d+)\\s*kg\\b", .tmpl "\\1 kg"),
  ("approximately\\s+(\\d+)", .tmpl "~\\1"),
  ("greater than or equal to\\s*(\\d+)", .tmpl "≥\\1"),
  ("less than or equal to\\s*(\\d+)", .tmpl "≤\\1"),
  -- Document Structure
  ("\\bsynopsis\\b", .tmpl "Synopsis"),
  ("\\bappendix\\s+([A-Za-z])\\b", .fn (fun m => "Appendix " ++ upperStr (m.grp "1"))),
  ("\\btable\\s+(\\d+)\\b", .fn (fun m => "Table " ++ m.grp "1")),
  ("\\bfigure\\s+(\\d+)\\b", .fn (fun m => "Figure " ++ m.grp "1")),
  ("\\bmaterials\\s+and\\s+methods\\b", .tmpl "Materials and Methods"),
  ("\\bresults\\s+and\\s+discussion\\b", .tmpl "Results and Discussion"),
  -- Study Phase
  ("\\bphase\\s*(1|one|i)\\b", .tmpl "Phase 1"),
  ("\\bphase\\s*(2|two|ii)\\b", .tmpl "Phase 2"),
  ("\\bphase\\s*(3|three|iii)\\b", .tmpl "Phase 3"),
  ("\\bphase\\s*(4|four|iv)\\b", .tmpl "Phase 4"),
  -- Organizations and Regulatory
  ("\\bfda\\b", .tmpl "FDA"),
  ("\\bema\\b", .tmpl "EMA"),
  ("\\birb\\b", .tmpl "IRB"),
  ("\\biec\\b", .tmpl "IEC"),
  ("\\bich\\b", .tmpl "ICH"),
  ("\\bgcp\\b", .tmpl "GCP"),
  ("\\bdaiichi\\s+sankyo\\b", .tmpl "Daiichi Sankyo"),
  -- Time Points
  ("\\bbase-line\\b", .tmpl "baseline"),
  ("\\bfollow\\s+up\\b", .tmpl "follow-up"),
  ("\\bend\\s+of\\s+treatment(?!\\s*\\([EOT]+\\))", .tmpl "end of treatment (EOT)"),
  ("\\bend\\s+of\\s+study(?!\\s*\\([EOS]+\\))", .tmpl "end of study (EOS)"),
  ("\\bscreening\\s+period\\b", .tmpl "Screening Period"),
  ("\\btreatment\\s+period\\b", .tmpl "Treatment Period"),
  -- Medical Terms
  ("\\becg\\b", .tmpl "ECG"),
  ("\\bmri\\b", .tmpl "MRI"),
  ("\\bct\\s+scan\\b", .tmpl "CT scan"),
  ("\\bdna\\b", .tmpl "DNA"),
  ("\\brna\\b", .tmpl "RNA"),
  ("\\bpcr\\b", .tmpl "PCR"),
  -- Demographics
  ("\\bbmi\\b", .tmpl "BMI"),
  ("\\bwhite\\b", .tmpl "White"),
  ("\\bblack\\b", .tmpl "Black"),
  ("\\basian\\b", .tmpl "Asian"),
  ("\\bother\\b", .tmpl "Other"),
  ("\\bmale\\b", .tmpl "Male"),
  ("\\bfemale\\b", .tmpl "Female"),
  -- Formatting
  ("i\\.e\\.\\s*([a-z])", .tmpl "i.e., \\1"),
  ("e\\.g\\.\\s*([a-z])", .tmpl "e.g., \\1"),
  ("vs\\.\\s*([a-z])", .tmpl "vs \\1"),
  ("etc\\.\\s*([a-z])", .tmpl "etc. \\1")]

/-! ### `DocumentProcessor.apply_style_corrections` (lines 158–205) -/

/-- The running state of the first pass: Python's local variables
`text` (the last changed snapshot), `corrected_text`, `corrections`. -/
structure PassState where
  text : String
  corrected : String
  corrections : List String

/-- Rendering of a replacement inside the change-description f-string
(for a lambda Python would print its `repr`; no claim inspects this text). -/
def replRender : Repl → String
  | .tmpl t => t
  | .fn _ => "<function>"

/-- One iteration of the first-pass loop over `corrections_map`: clinical
patterns (those whose *pattern text* contains `adverse`, `event` or
`reaction`) are skipped; string replacements are compiled with
`re.IGNORECASE`, callables are applied with `re.sub` and no flags. -/
def applyOnePattern (st : PassState) (pr : String × Repl) : PassState :=
  if ["adverse", "event", "reaction"].any (fun kw => substrB pr.1 kw) then st
  else
    let ct :=
      match pr.2 with
      | .fn f => reSub false (compile pr.1) (.fn f) st.corrected
      | .tmpl t => reSub true (compile pr.1) (.tmpl t) st.corrected
    if ct = st.text then { st with corrected := ct }
    else
      { text := ct, corrected := ct,
        corrections := st.corrections ++
          ["Applied rule: " ++ pr.1 ++ " -> " ++ replRender pr.2] }

/-- The second-pass alternation (line 197); note: no negative look-ahead. -/
def clinical_pattern : String :=
  "\\b(treatment[- ]emergent\\s+adverse\\s+event|serious\\s+adverse\\s+event|adverse\\s+event|adverse\\s+drug\\s+reaction)\\b"

/-- `replace_clinical_term` (lines 181–194): the replacement function of the
second pass, dispatching on the matched span. -/
def replace_clinical_term (m : MatchData) : String :=
  let text := m.group0
  let text_lower := lowerStr text
  if substrB text_lower "treatment emergent adverse event"
      || substrB text_lower "treatment-emergent adverse event" then
    reSub true (compile "treatment[- ]emergent\\s+adverse\\s+event")
      (.tmpl "treatment-emergent adverse event (TEAE)") text
  else if substrB text_lower "serious adverse event" then
    reSub true (compile "serious\\s+adverse\\s+event")
      (.tmpl "serious adverse event (SAE)") text
  else if substrB text_lower "adverse event" then
    reSub true (compile "adverse\\s+event") (.tmpl "adverse event (AE)") text
  else if substrB text_lower "adverse drug reaction" then
    reSub true (compile "adverse\\s+drug\\s+reaction")
      (.tmpl "adverse drug reaction (ADR)") text
  else text

/-- `apply_style_corrections(text)`: first pass over `corrections_map`, the
clinical-term precedence pass, then the three post-formatting fixes. -/
def apply_style_corrections (text : String) : String × List String :=
  let st := corrections_map.foldl applyOnePattern ⟨text, text, []⟩
  let ct2 := reSub true (compile clinical_pattern) (.fn replace_clinical_term) st.corrected
  let ct3 := reSub false (compile "i\\.e\\.,?\\s*(\\d+)") (.tmpl "i.e., \\1") ct2
  let ct4 := reSub false (compile "~\\s+(\\d+)") (.tmpl "~\\1") ct3
  let ct5 := reSub false (compile "([≤≥])\\s+(\\d+)") (.tmpl "\\1\\2") ct4
  (ct5, st.corrections)

/-! ### `DocumentProcessor.chunk_text` (lines 129–156) -/

/-- `re.split(r'([.!?])', text)`: the pieces between the delimiters with each
delimiter as its own element (empty pieces included, as Python produces). -/
def splitKeep : List Char → List (List Char)
  | [] => [[]]
  | c :: t =>
      if c == '.' || c == '!' || c == '?' then
        [] :: [c] :: splitKeep t
      else
        match splitKeep t with
        | [] => [[c]]            -- unreachable: splitKeep never returns []
        | p :: ps => (c :: p) :: ps

/-- `sentences = [s.strip() for s in re.split(r'([.!?])', text) if s.strip()]`. -/
def sentencePieces (text : String) : List String :=
  ((splitKeep text.data).map (fun l => String.mk (stripL l))).filter (fun s => s ≠ "")

/-- The `range(0, len(sentences), 2)` pairing: element `i` with element
`i+1` (or `""` when absent). -/
def pairUp : List String → List (String × String)
  | [] => []
  | [a] => [(a, "")]
  | a :: b :: rest => (a, b) :: pairUp rest

/-- The `full_sentence = sentence + delimiter` values in iteration order. -/
def fullSentences (text : String) : List String :=
  (pairUp (sentencePieces text)).map (fun p => p.1 ++ p.2)

/-- `self.chunk_size` (set in `__init__`). -/
def chunk_size : Nat := 500

/-- The greedy accumulation loop of `chunk_text`:
state = (`current_chunk`, `current_length`). -/
def chunkLoop : List String → List String → Nat → List String
  | [], cc, _ => if cc = [] then [] else [String.join cc]
  | fs :: rest, cc, clen =>
      if chunk_size < clen + fs.length then
        if cc = [] then chunkLoop rest [fs] fs.length
        else String.join cc :: chunkLoop rest [fs] fs.length
      else chunkLoop rest (cc ++ [fs]) (clen + fs.length)

/-- `chunk_text(text)`. -/
def chunk_text (text : String) : List String :=
  chunkLoop (fullSentences text) [] 0

/-! ### `RuleExtractor` (`src/app/processor/rule_extractor.py`) -/

/-- `RuleCategory` (`src/app/models/rule_schema.py`). -/
inductive RuleCategory where
  | STRUCTURE | NUMBERS | DOMAIN | FORMATTING
  | PUNCTUATION | GRAMMAR | ABBREVIATION | REFERENCE
deriving DecidableEq, Repr

/-- `RuleType` (`src/app/models/rule_schema.py`). -/
inductive RuleType where
  | DIRECT | PATTERN | MULTI | CASE | CONTEXT
deriving DecidableEq, Repr

/-- `category_keywords` (lines 10–43): the per-category keyword lists, in
dict insertion order.  The `tags` entries are never read by the extractor
and are omitted. -/
def category_keywords : List (RuleCategory × List String) := [
  (.STRUCTURE, ["section", "heading", "table", "format", "layout", "indent", "margin",
                "page", "paragraph", "list"]),
  (.NUMBERS, ["number", "measurement", "range", "value", "unit", "percent", "mg", "ml",
              "kg", "decimal", "digit"]),
  (.DOMAIN, ["medical", "drug", "company", "clinical", "disease", "patient", "subject",
             "treatment", "dose", "study"]),
  (.FORMATTING, ["capital", "space", "hyphen", "indent", "font", "bold", "italic",
                 "underline", "case", "format"]),
  (.PUNCTUATION, ["comma", "period", "colon", "semicolon", "dash", "hyphen",
                  "parentheses", "bracket", "quote"]),
  (.GRAMMAR, ["tense", "verb", "sentence", "plural", "singular", "active", "passive",
              "voice", "agreement"]),
  (.ABBREVIATION, ["abbreviation", "acronym", "short form", "initialism", "expansion",
                   "define", "spell out"]),
  (.REFERENCE, ["reference", "citation", "source", "bibliography", "appendix", "table",
                "figure", "cite"])]

/-- A single-quote character, kept out of string literals. -/
def sq : String := String.singleton (Char.ofNat 39)

/-- The quote class `["\']` appearing in several extraction patterns. -/
def qcls : String := "[\"\\" ++ sq ++ "]"

/-- `rule_patterns` (lines 46–84), in list order. -/
def rule_patterns : List String := [
  -- Direct replacements with arrows
  "(?P<pattern>[^→]+)→\\s*(?P<replacement>.+)",
  "(?P<pattern>[^=]+)=>\\s*(?P<replacement>.+)",
  "(?P<pattern>[^-]+)->\\s*(?P<replacement>.+)",
  -- Should/must be patterns
  "(?P<pattern>.*?)\\s*(?:should|must)\\s+be\\s+(?P<replacement>.*)",
  "(?P<pattern>.*?)\\s+(?:is|are)\\s+(?P<replacement>.*)",
  -- Use/write/spell patterns
  "Use\\s*" ++ qcls ++ "(?P<replacement>.*?)" ++ qcls ++ "(?:\\s+instead\\s+of|\\s+not\\s+)"
    ++ qcls ++ "(?P<pattern>.*?)" ++ qcls,
  "Write\\s*" ++ qcls ++ "(?P<replacement>.*?)" ++ qcls ++ "(?:\\s+instead\\s+of|\\s+not\\s+)"
    ++ qcls ++ "(?P<pattern>.*?)" ++ qcls,
  "Spell\\s+out\\s*" ++ qcls ++ "(?P<pattern>.*?)" ++ qcls ++ "(?:\\s+as\\s+)"
    ++ qcls ++ "(?P<replacement>.*?)" ++ qcls,
  -- Change/becomes patterns
  "(?P<pattern>.*?)\\s*(?:changes\\s+to|becomes)\\s*(?P<replacement>.*)",
  "Change\\s*" ++ qcls ++ "(?P<pattern>.*?)" ++ qcls ++ "(?:\\s+to\\s+)"
    ++ qcls ++ "(?P<replacement>.*?)" ++ qcls,
  -- Case rules
  "(?i)(?P<pattern>\\b\\w+\\b)\\s*should\\s+be\\s*(?:in\\s+)?(?P<case>upper\\s*case|lower\\s*case|title\\s*case|capitalized)",
  "(?i)Capitalize\\s+(?P<pattern>.*?)(?:\\s+when|$)",
  -- Context-sensitive rules
  "(?i)When\\s+(?P<context>.*?),\\s*(?P<pattern>.*?)\\s*should\\s+be\\s*(?P<replacement>.*)",
  "(?i)If\\s+(?P<context>.*?),\\s*use\\s*(?P<replacement>.*?)\\s*(?:instead\\s+of|not)\\s*(?P<pattern>.*)",
  -- Multi-word phrases
  "(?i)Replace\\s*" ++ qcls ++ "(?P<pattern>.*?)" ++ qcls ++ "(?:\\s+with\\s+)"
    ++ qcls ++ "(?P<replacement>.*?)" ++ qcls,
  "(?i)The\\s+phrase\\s*" ++ qcls ++ "(?P<pattern>.*?)" ++ qcls ++ "(?:\\s+should\\s+be\\s+)"
    ++ qcls ++ "(?P<replacement>.*?)" ++ qcls,
  -- Pattern-based rules
  "(?i)Numbers\\s+(?P<pattern>\\d+(?:[,-]\\d+)*)\\s*should\\s+be\\s*(?P<replacement>.*)",
  "(?i)Units\\s+(?P<pattern>[a-zA-Z]+)\\s*should\\s+be\\s*(?P<replacement>.*)",
  -- Abbreviation rules
  "(?i)Abbreviate\\s*" ++ qcls ++ "(?P<pattern>.*?)" ++ qcls ++ "(?:\\s+as\\s+)"
    ++ qcls ++ "(?P<replacement>.*?)" ++ qcls,
  "(?i)The\\s+abbreviation\\s*" ++ qcls ++ "(?P<pattern>.*?)" ++ qcls
    ++ "(?:\\s+stands\\s+for\\s+)" ++ qcls ++ "(?P<replacement>.*?)" ++ qcls]

/-- `_determine_rule_type(pattern, replacement)` (lines 119–130).  The
`callable(replacement)` branch can never fire here: every replacement the
extractor captures is a string; the remaining cascade is verbatim. -/
def determine_rule_type (pattern replacement : String) : RuleType :=
  if substrB pattern "(" || substrB pattern "[" then .PATTERN
  else if 2 < (pysplit pattern).length then .MULTI
  else if lowerStr pattern ≠ lowerStr replacement then .CASE
  else .DIRECT

/-- `_determine_rule_category(text)` (lines 132–144): keyword scores,
strictly-greater updates, default `FORMATTING`. -/
def determine_rule_category (text : String) : RuleCategory :=
  let t := lowerStr text
  (category_keywords.foldl
    (fun (acc : Nat × RuleCategory) ck =>
      let score := (ck.2.filter (fun kw => substrB t (lowerStr kw))).length
      if acc.1 < score then (score, ck.1) else acc)
    (0, RuleCategory.FORMATTING)).2

/-- The rule dict built by `extract_rules` (lines 104–112).  The freshly
generated `uuid4` id is impure and not modelled; `examples` is always the
empty list. -/
structure RawRule where
  pattern : String
  replacement : String
  description : String
  examples : List String
  rtype : RuleType        -- dict key `type`
  category : RuleCategory
deriving DecidableEq, Repr

/-- The inner double loop of `extract_rules` for one (stripped, non-empty)
sentence segment: every pattern is tried, every `finditer` match yields a
rule; a match whose `pattern`/`replacement` group is missing or
unparticipating raises `IndexError`/`AttributeError` in Python and is
skipped. -/
def extractRulesFromSegment (sent_text : String) : List RawRule :=
  rule_patterns.flatMap (fun pat =>
    let fr := compileFlagged pat
    (findAll fr.1 fr.2 sent_text).filterMap (fun m =>
      match m.grpOpt "pattern", m.grpOpt "replacement" with
      | some p, some rep =>
          some { pattern := stripS p, replacement := stripS rep,
                 description := sent_text, examples := [],
                 rtype := determine_rule_type p rep,
                 category := determine_rule_category sent_text }
      | _, _ => none))

/-- `extract_rules(text)` (lines 86–117), over the sentence segments the
spaCy tokenizer (an external collaborator) produces: empty segments are
skipped, each remaining segment is processed by the pattern loop. -/
def extract_rules (segments : List String) : List RawRule :=
  segments.flatMap (fun sent =>
    let sent_text := stripS sent
    if sent_text = "" then [] else extractRulesFromSegment sent_text)

/-- Modelled from the spec: the spec's `determineRuleType` check order
("classify as CASE if the segment mentions case-related keywords (case,
upper, lower, capitalize); else MULTI if pattern or replacement spans more
than a fixed word-count threshold (3 words); else PATTERN if the pattern
text contains wildcard/regex metacharacters; else CONTEXT if the segment
contains conditional keywords (when, if, unless, except); else DIRECT").
Stated for comparison with the source's `determine_rule_type`. -/
def determineRuleTypeSpec (segment pattern replacement : String) : RuleType :=
  let seg := lowerStr segment
  if ["case", "upper", "lower", "capitalize"].any (fun kw => substrB seg kw) then .CASE
  else if 3 < (pysplit pattern).length || 3 < (pysplit replacement).length then .MULTI
  else if "*?[]().+|\\^$".data.any (fun c => pattern.data.contains c) then .PATTERN
  else if ["when", "if", "unless", "except"].any (fun kw => substrB seg kw) then .CONTEXT
  else .DIRECT

/-! ### Embedding index model

The embedder and the `faiss` nearest-neighbor store are external
collaborators (spec §6, §4.3): the embedder is an opaque parameter
`embed : String → Vec`, the store is the list of inserted vectors. -/

/-- An embedding vector. -/
abbrev Vec := List Rat

/-- Squared Euclidean (L2) distance, the metric of `faiss.IndexFlatL2`. -/
def l2sq (a b : Vec) : Rat := ((a.zip b).map (fun p => (p.1 - p.2) * (p.1 - p.2))).sum

/-- Insert into a distance-ascending list (stable). -/
def insertAsc (x : Rat × Nat) : List (Rat × Nat) → List (Rat × Nat)
  | [] => [x]
  | y :: t => if x.1 ≤ y.1 then x :: y :: t else y :: insertAsc x t

/-- Insertion sort, ascending by distance. -/
def sortAsc : List (Rat × Nat) → List (Rat × Nat)
  | [] => []
  | x :: t => insertAsc x (sortAsc t)

/-- Modelled from the spec: the opaque nearest-neighbor store
(`faiss.IndexFlatL2`, not part of this repository).  Spec §4.3:
"`search(queryText, k)` → ordered sequence of (item, distance) sorted
ascending by distance, returning at most `k` results and never more than
the number of stored items"; distance is squared L2.  Results are
`(distance, stored index)`. -/
def searchIndex (stored : List Vec) (q : Vec) (k : Nat) : List (Rat × Nat) :=
  (sortAsc (stored.enum.map (fun p => (l2sq q p.2, p.1)))).take k

/-! ### `StyleGuideProcessor` (`src/document_processor.py`) -/

/-- `StyleChunk` (lines 13–25).  The optional `embedding` lives in the
index model (`GuideState.stored`); the constant `metadata` dict is read by
no claim and is omitted. -/
structure StyleChunk where
  content : String
  rule_type : String
  «section» : String
  examples : List String
deriving DecidableEq, Repr

/-- The heading patterns of `extract_sections` (lines 46–50). -/
def heading_patterns : List String :=
  ["^#+\\s+(.+)$", "^[A-Z][^a-z]+[.:]\\s*(.+)$", "^\\d+\\.\\s+(.+)$"]

/-- `text.split('\n')` (keeps empty lines). -/
def splitOnNL : List Char → List (List Char)
  | [] => [[]]
  | c :: t =>
      if c == '\n' then [] :: splitOnNL t
      else
        match splitOnNL t with
        | [] => [[c]]            -- unreachable: splitOnNL never returns []
        | p :: ps => (c :: p) :: ps

/-- The first heading pattern matching the stripped line, with its
captured title (`re.match`, anchored at the start). -/
def firstHeading (line : String) : Option String :=
  (heading_patterns.filterMap (fun pat =>
    (reMatch false (compile pat) (stripS line)).map (fun m => m.grp "1"))).head?

/-- The line loop of `extract_sections`:
state = (`current_section`, `current_content`). -/
def extractSectionsLoop : List String → String → List String → List (String × String)
  | [], cs, cc =>
      if cs = "" then [] else [(cs, stripS (String.intercalate "\n" cc))]
  | line :: rest, cs, cc =>
      match firstHeading line with
      | some title =>
          if cs = "" then extractSectionsLoop rest title []
          else (cs, stripS (String.intercalate "\n" cc)) :: extractSectionsLoop rest title []
      | none => extractSectionsLoop rest cs (cc ++ [line])

/-- `extract_sections(text)` (lines 39–70). -/
def extract_sections (text : String) : List (String × String) :=
  extractSectionsLoop ((splitOnNL text.data).map String.mk) "" []

/-- `example_patterns` of `extract_examples` (lines 74–78), verbatim
(including the mojibake bullet `â€¢` present in the source). -/
def example_patterns : List String :=
  ["(?:Example|e\\.g\\.|For example)[:\\s]+([^.\\n]+(?:[.\\n][^.\\n]+)*)",
   "(?m)^â€¢\\s*([^.\\n]+(?:[.\\n][^.\\n]+)*)",
   "(?m)^\\d+\\.\\s+([^.\\n]+(?:[.\\n][^.\\n]+)*)"]

/-- Compile an example pattern: the `finditer` calls pass
`re.IGNORECASE | re.MULTILINE`, and the engine's `^` already has MULTILINE
semantics, so an inline `(?m)` is simply dropped. -/
def compileML (pat : String) : RE :=
  if "(?m)".data.isPrefixOf pat.data then compile ⟨pat.data.drop 4⟩ else compile pat

/-- `extract_examples(text)` (lines 72–85). -/
def extract_examples (text : String) : List String :=
  example_patterns.flatMap (fun pat =>
    (findAll true (compileML pat) text).map (fun m => stripS (m.grp "1")))

/-- `rule_types` of `identify_rule_type` (lines 89–95). -/
def rule_types : List (String × List String) := [
  ("formatting", ["format", "style", "font", "spacing", "margin", "indent", "layout"]),
  ("grammar", ["grammar", "tense", "verb", "noun", "sentence", "phrase"]),
  ("punctuation", ["punctuation", "comma", "period", "colon", "semicolon"]),
  ("terminology", ["term", "word", "vocabulary", "glossary", "definition"]),
  ("structure", ["structure", "organization", "section", "heading", "outline"])]

/-- `identify_rule_type(text, section)` (lines 87–108): keyword scores over
`text.lower() + " " + section.lower()`, first maximal key, else `general`. -/
def identify_rule_type (text sectionTitle : String) : String :=
  let tl := lowerStr text ++ " " ++ lowerStr sectionTitle
  let best := rule_types.foldl
    (fun (acc : String × Nat) p =>
      let score := (p.2.filter (fun kw => substrB tl kw)).length
      if acc.2 < score then (p.1, score) else acc)
    ("", 0)
  if 0 < best.2 then best.1 else "general"

/-- The ingestion state of a `StyleGuideProcessor`: `self.chunks` and the
contents of `self.index` (one vector per `index.add`, in insertion order). -/
structure GuideState where
  chunks : List StyleChunk
  stored : List Vec
deriving DecidableEq

/-- The `StyleChunk` built for one text chunk of a section (lines 159–175). -/
def mkStyleChunk (chunkText sectionTitle : String) : StyleChunk :=
  { content := chunkText,
    rule_type := identify_rule_type chunkText sectionTitle,
    «section» := sectionTitle,
    examples := extract_examples chunkText }

/-- `preprocess_pdf` (lines 110–182).  PDF text extraction and the
langchain `RecursiveCharacterTextSplitter` are external collaborators:
the page-joined text is the argument `full_text` and the splitter is the
opaque `splitter`.  Chunks whose stripped length is `< 50` are skipped;
each kept chunk is appended to the (fresh) chunk list *and* its embedding
is added to the *existing* index; finally `self.chunks` is replaced by the
new list while the index keeps its prior contents. -/
def preprocess_pdf (embed : String → Vec) (splitter : String → List String)
    (st : GuideState) (full_text : String) : GuideState :=
  let newChunks := (extract_sections full_text).flatMap (fun sec =>
    (splitter sec.2).filterMap (fun ch =>
      if (stripS ch).length < 50 then none else some (mkStyleChunk ch sec.1)))
  { chunks := newChunks,
    stored := st.stored ++ newChunks.map (fun c => embed c.content) }

/-- The rule dict of `process_csr_document` (lines 268–274). -/
structure MatchedRule where
  rule : String
  rtype : String          -- dict key `type`
  «section» : String
  examples : List String
  confidence : Rat
deriving DecidableEq, Repr

/-- The `matched_rules` loop (lines 262–274): bounds check, distance
threshold `1.5`, examples required, `confidence = 1 - distance/2`. -/
def matchedRulesFor (chunks : List StyleChunk) (stored : List Vec) (q : Vec) (k : Nat) :
    List MatchedRule :=
  (searchIndex stored q k).filterMap (fun di =>
    match chunks[di.2]? with
    | none => none
    | some chunk =>
        if di.1 < 3 / 2 then
          if chunk.examples = [] then none
          else some { rule := chunk.content, rtype := chunk.rule_type,
                      «section» := chunk.«section», examples := chunk.examples,
                      confidence := 1 - di.1 / 2 }
        else none)

/-- The change marker (line 216).  Python renders the confidence with float
formatting; the digits are rendered here as the canonical `Rat` string,
which no claim inspects. -/
def markerFor (conf : Rat) (replacement : String) : String :=
  "<change confidence=" ++ toString conf ++ ">" ++ replacement ++ "</change>"

/-- Stable position-descending insertion, modelling
`rules_with_pos.sort(reverse=True)`.  (On equal positions Python would
compare the rule dicts and raise `TypeError`; no claim exercises a tie.) -/
def insertDesc (x : Nat × MatchedRule) : List (Nat × MatchedRule) → List (Nat × MatchedRule)
  | [] => [x]
  | y :: t => if y.1 ≤ x.1 then x :: y :: t else y :: insertDesc x t

/-- Sort by text position, rightmost first. -/
def sortByPosDesc : List (Nat × MatchedRule) → List (Nat × MatchedRule)
  | [] => []
  | x :: t => insertDesc x (sortByPosDesc t)

/-- One iteration of the application loop of `apply_style_rules`
(lines 206–223); state = (`corrected_text`, `has_changes`). -/
def applyRuleStep (st : String × Bool) (pr : Nat × MatchedRule) : String × Bool :=
  match findLowerS st.1 pr.2.rule with
  | none => st
  | some mp =>
    match pr.2.examples with
    | [] => st
    | replacement :: _ =>
      let original_text : String := ⟨(st.1.data.drop mp).take pr.2.rule.length⟩
      if lowerStr (stripS original_text) = lowerStr (stripS replacement) then st
      else
        (⟨st.1.data.take mp ++ (markerFor pr.2.confidence replacement).data
            ++ st.1.data.drop (mp + pr.2.rule.length)⟩, true)

/-- `apply_style_rules(text, rules)` (lines 188–225). -/
def apply_style_rules (text : String) (rules : List MatchedRule) : String :=
  let rules_with_pos := rules.filterMap (fun r =>
    (findLowerS text r.rule).map (fun p => (p, r)))
  let res := (sortByPosDesc rules_with_pos).foldl applyRuleStep (text, false)
  if res.2 then res.1 else text

/-- The `ValueError` message of the precursor check (line 231). -/
def errNoGuide : String :=
  "No style guide has been processed yet. Please upload a style guide first."

/-- One entry of the `applied_rules` result (lines 284–291). -/
structure AppliedPara where
  original_text : String
  corrected_text : String
  applied_rules : List MatchedRule
deriving DecidableEq, Repr

/-- `process_csr_document` (lines 227–293).  The docx reader/writer are
external: the paragraph texts are the argument and the `Document` half of
the Python return value (a pass-through copy of the paragraphs) is not
modelled.  Raising `ValueError` is the `.error` branch. -/
def process_csr_document (embed : String → Vec) (st : GuideState) (paras : List String) :
    Except String (List AppliedPara) :=
  if st.chunks = [] then .error errNoGuide
  else .ok (paras.filterMap (fun ptext =>
    if stripS ptext = "" then none
    else
      let k := min 3 st.chunks.length
      if k = 0 then none
      else
        let matched := matchedRulesFor st.chunks st.stored (embed ptext) k
        if matched = [] then none
        else
          let corrected := apply_style_rules ptext matched
          if corrected = ptext then none
          else some { original_text := ptext, corrected_text := corrected,
                      applied_rules := matched.filter (fun r =>
                        r.examples.any (fun ex =>
                          lowerStr (stripS ex) ≠ lowerStr (stripS ptext))) }))

/-! ### `DocumentProcessor` ingestion and CSR processing
(`src/app/processor/document_processor.py`) -/

/-- `StyleRule` (`src/app/models/rule_schema.py`). -/
structure StyleRule where
  id : String
  category : RuleCategory
  rtype : RuleType        -- field `type`
  description : String
  pattern : String
  replacement : String
  examples : List String
  context : List (String × String)
deriving DecidableEq, Repr

/-- The `DocumentProcessor` index state: `self.style_rules` and
`self.index` (`None` until the first non-empty ingestion builds it). -/
structure AppState where
  style_rules : List StyleRule
  index : Option (List Vec)
deriving DecidableEq

/-- `process_style_guide` (lines 207–232): flatten the categorized rules,
always replace `self.style_rules`, and rebuild the index from scratch —
but only when `rule_texts` is non-empty (an empty guide leaves the
previous index in place). -/
def process_style_guide (embed : String → Vec) (st : AppState)
    (rules : List (RuleCategory × List StyleRule)) : AppState :=
  let flat_rules := rules.flatMap (fun p => p.2)
  let rule_texts := flat_rules.map (fun r => r.pattern ++ " " ++ r.replacement)
  if rule_texts = [] then { style_rules := flat_rules, index := st.index }
  else { style_rules := flat_rules, index := some (rule_texts.map embed) }

/-- One element of a `process_csr` chunk's `matches` list (lines 263–271).
Python indexes `self.style_rules[idx]` directly; an out-of-range index
would raise, modelled by the `none` case of the lookup. -/
structure CsrMatch where
  rule : Option StyleRule
  distance : Rat
  changes : List String
deriving DecidableEq

/-- One element of the `process_csr` result list (lines 274–279). -/
structure CsrChunkResult where
  text : String
  corrected_text : String
  «matches» : List CsrMatch
  changes : List String
deriving DecidableEq

/-- `process_csr` (lines 234–286).  Docx extraction is external (the
extracted text is the argument).  Note: when `self.index is None` the
matches are simply empty — no error is raised. -/
def process_csr (st : AppState) (embed : String → Vec) (text : String) :
    List CsrChunkResult :=
  (chunk_text text).map (fun chunk =>
    let pr := apply_style_corrections chunk
    let «matches» :=
      match st.index with
      | none => []
      | some stored =>
          (searchIndex stored (embed chunk) (min 3 st.style_rules.length)).filterMap
            (fun di =>
              if di.1 < 100 then
                some { rule := st.style_rules[di.2]?, distance := di.1, changes := pr.2 }
              else none)
    { text := chunk, corrected_text := pr.1, «matches» := «matches», changes := pr.2 })

/-! ### The lock-step invariant (spec §3) -/

/-- "index `i` in the vector store always refers to position `i` in the
chunk list": the stored vectors are exactly the embeddings of the chunks,
in order. -/
def lockstepChunks (embed : String → Vec) (st : GuideState) : Prop :=
  st.stored = st.chunks.map (fun c => embed c.content)

/-- The same invariant for the rule-based `DocumentProcessor` index. -/
def lockstepRules (embed : String → Vec) (st : AppState) : Prop :=
  st.index = some (st.style_rules.map (fun r => embed (r.pattern ++ " " ++ r.replacement)))

/-! ### Claim C1 -/

/-- Claim C1 (deterministic pass is idempotent; in particular "(AE)" is
never re-appended): refuted by the code.  On `"reported adverse event"` the
pass appends `"(AE)"`, and re-applying it appends a second `"(AE)"`: the
clinical-term precedence pass (`clinical_pattern` + `replace_clinical_term`)
matches without any negative look-ahead — the look-ahead-guarded clinical
entries of `corrections_map` are exactly the ones the first pass skips. -/
theorem c1_reapplication_appends_AE :
    (apply_style_corrections
        (apply_style_corrections "reported adverse event").1).1 ≠
      (apply_style_corrections "reported adverse event").1 ∧
    (apply_style_corrections "reported adverse event").1 =
      "reported adverse event (AE)" ∧
    (apply_style_corrections
        (apply_style_corrections "reported adverse event").1).1 =
      "reported adverse event (AE) (AE)" := by
  have h1 : (apply_style_corrections "reported adverse event").1 =
      "reported adverse event (AE)" := by decide
  have h2 : (apply_style_corrections "reported adverse event (AE)").1 =
      "reported adverse event (AE) (AE)" := by decide
  refine ⟨?_, h1, ?_⟩
  · rw [h1, h2]; decide
  · rw [h1]; exact h2

/-! ### Claim C6 -/

/-- Claim C6 (extraction stops at the first matching pattern, so each
segment yields at most one rule): refuted.  The segment
`"dosage -> dose should be used"` matches both the ASCII-arrow pattern and
the should/must-be pattern, and `extract_rules` has no early exit, so the
segment yields two rules. -/
theorem c6_counterexample :
    ¬ (extract_rules ["dosage -> dose should be used"]).length ≤ 1 := by decide

/-- Claim C6 as amended: patterns are tried in the fixed priority order,
but extraction does not stop at the first match — every `finditer` match of
every pattern yields a rule, listed in pattern-priority order.  On the
counterexample segment the arrow-pattern rule comes first, then the
should-be-pattern rule. -/
theorem c6_amended :
    extract_rules ["dosage -> dose should be used"] =
      [{ pattern := "dosage", replacement := "dose should be used",
         description := "dosage -> dose should be used", examples := [],
         rtype := RuleType.CASE, category := RuleCategory.DOMAIN },
       { pattern := "dosage -> dose", replacement := "used",
         description := "dosage -> dose should be used", examples := [],
         rtype := RuleType.MULTI, category := RuleCategory.DOMAIN }] := by decide

/-! ### Claim C8 -/

/-- Claim C8 (spec's classification order CASE → MULTI(>3 words) →
PATTERN → CONTEXT → DIRECT, driven partly by segment keywords): refuted.
For pattern = replacement = `"a b c"` in a keyword-free segment the spec
order yields DIRECT (3 words is not more than 3), while the code yields
MULTI (its threshold is more than 2 words, checked before CASE/DIRECT). -/
theorem c8_counterexample :
    determine_rule_type "a b c" "a b c" = RuleType.MULTI ∧
    determineRuleTypeSpec "x y z" "a b c" "a b c" = RuleType.DIRECT ∧
    RuleType.MULTI ≠ RuleType.DIRECT := by
  refine ⟨by decide, by decide, by decide⟩

/-- Claim C8 as amended: the code's classification ignores the segment and
checks, in order: PATTERN if the pattern contains `(` or `[`; else MULTI if
the pattern has more than 2 whitespace-separated words; else CASE if
pattern and replacement differ case-insensitively; else DIRECT — and the
CONTEXT type is never produced. -/
theorem c8_amended (p r : String) :
    determine_rule_type p r ≠ RuleType.CONTEXT ∧
    ((substrB p "(" || substrB p "[") = true →
      determine_rule_type p r = RuleType.PATTERN) ∧
    ((substrB p "(" || substrB p "[") = false → 2 < (pysplit p).length →
      determine_rule_type p r = RuleType.MULTI) ∧
    ((substrB p "(" || substrB p "[") = false → ¬ 2 < (pysplit p).length →
      lowerStr p ≠ lowerStr r → determine_rule_type p r = RuleType.CASE) ∧
    ((substrB p "(" || substrB p "[") = false → ¬ 2 < (pysplit p).length →
      lowerStr p = lowerStr r → determine_rule_type p r = RuleType.DIRECT) := by
  unfold determine_rule_type
  refine ⟨?_, ?_, ?_, ?_, ?_⟩ <;> intros <;> split_ifs <;> simp_all

/-- Witness for `c8_amended` at a concrete input. -/
theorem c8_amended_witness : determine_rule_type "(x)" "y" = RuleType.PATTERN :=
  (c8_amended "(x)" "y").2.1 (by decide)

/-! ### Claim C2 -/

/-- Claim C2 ("a span matched as 'serious adverse event' is never rewritten
with the shorter-substring abbreviation '(AE)'"): refuted at a double-spaced
span.  The alternation branch `serious\s+adverse\s+event` matches
`"serious  adverse event"`, but `replace_clinical_term` tests the matched
span for the *single-spaced* phrase, misses, and falls through to the
`"(AE)"`-appending branch. -/
theorem c2_counterexample :
    (apply_style_corrections "serious  adverse event occurred").1 =
      "serious  adverse event (AE) occurred" ∧
    substrB (apply_style_corrections "serious  adverse event occurred").1 "(AE)" = true := by
  have h : (apply_style_corrections "serious  adverse event occurred").1 =
      "serious  adverse event (AE) occurred" := by decide
  refine ⟨h, ?_⟩
  rw [h]
  decide

/-- Claim C2 as amended: the precedence mappings hold for the single-spaced
forms — `"treatment emergent adverse event"` becomes the TEAE form (not
"(AE)"), `"serious adverse event occurred"` becomes the SAE form, and the
latter output contains no `"(AE)"` — and a matched span is never rewritten
with `"(AE)"` *provided* its lowercase form contains the single-spaced
phrase `"serious adverse event"` (and no treatment-emergent form): every
such span takes the SAE branch of `replace_clinical_term`.  Spans matched
with other whitespace between the words escape this guarantee (see
`c2_counterexample`). -/
theorem c2_precedence :
    (apply_style_corrections "treatment emergent adverse event").1 =
      "treatment-emergent adverse event (TEAE)" ∧
    (apply_style_corrections "serious adverse event occurred").1 =
      "serious adverse event (SAE) occurred" ∧
    substrB (apply_style_corrections "serious adverse event occurred").1 "(AE)" = false ∧
    ∀ s : String, substrB (lowerStr s) "serious adverse event" = true →
      substrB (lowerStr s) "treatment emergent adverse event" = false →
      substrB (lowerStr s) "treatment-emergent adverse event" = false →
      replace_clinical_term ⟨s, []⟩ =
        reSub true (compile "serious\\s+adverse\\s+event")
          (.tmpl "serious adverse event (SAE)") s := by
  refine ⟨by decide, by decide, by decide, ?_⟩
  intro s h1 h2 h3
  unfold replace_clinical_term
  simp only [MatchData.group0, h1, h2, h3]
  simp

/-- Witness for `c2_precedence` at the concrete span
`"serious adverse event"`. -/
theorem c2_precedence_witness :
    replace_clinical_term ⟨"serious adverse event", []⟩ =
      reSub true (compile "serious\\s+adverse\\s+event")
        (.tmpl "serious adverse event (SAE)") "serious adverse event" :=
  c2_precedence.2.2.2 "serious adverse event" (by decide) (by decide) (by decide)

/-! ### Claim C5 -/

/-- Claim C5 (both `process_csr_document` and `process_csr` raise
`PrecursorMissing` before any style guide is ingested): refuted for
`process_csr`.  With no guide ingested (`index is None`) it returns an
ordinary successful result whose `matches` are empty — indistinguishable
from "no corrections needed". -/
theorem c5_counterexample :
    process_csr ⟨[], none⟩ (fun _ => []) "Some text." =
      [{ text := "Some text.", corrected_text := "Some text.",
         «matches» := [], changes := [] }] := by decide

/-- Claim C5 as amended: only `process_csr_document` fails fast — with an
empty chunk list it raises the specific `ValueError` and never returns a
result; `process_csr`, by contrast, never raises: with `index is None`
every chunk it returns simply carries an empty `matches` list. -/
theorem c5_amended (embed : String → Vec) (st : GuideState) (paras : List String)
    (h : st.chunks = []) :
    process_csr_document embed st paras = .error errNoGuide ∧
    ∀ (ast : AppState) (e2 : String → Vec) (text : String),
      ast.index = none → ∀ res ∈ process_csr ast e2 text, res.«matches» = [] := by
  constructor
  · unfold process_csr_document
    simp [h]
  · intro ast e2 text hidx res hres
    unfold process_csr at hres
    rw [List.mem_map] at hres
    obtain ⟨chunk, _, hc⟩ := hres
    rw [hidx] at hc
    simp only at hc
    rw [← hc]

/-- Witness for `c5_amended` at a concrete empty state. -/
theorem c5_amended_witness :
    process_csr_document (fun _ => ([] : Vec)) ⟨[], []⟩ ["x"] = .error errNoGuide :=
  (c5_amended (fun _ => []) ⟨[], []⟩ ["x"] rfl).1

/-! ### Claims C4 and C7: properties of the retrieval model -/

/-- Squared-L2 distances are nonnegative. -/
theorem l2sq_nonneg (a b : Vec) : 0 ≤ l2sq a b := by
  unfold l2sq
  apply List.sum_nonneg
  intro x hx
  rw [List.mem_map] at hx
  obtain ⟨p, _, rfl⟩ := hx
  exact mul_self_nonneg _

/-- Membership through `insertAsc`. -/
theorem mem_insertAsc (x y : Rat × Nat) (l : List (Rat × Nat)) :
    x ∈ insertAsc y l ↔ x = y ∨ x ∈ l := by
  induction l with
  | nil => simp [insertAsc]
  | cons z t ih =>
      unfold insertAsc
      split
      · simp
      · simp [ih]
        tauto

/-- Membership through `sortAsc`. -/
theorem mem_sortAsc (x : Rat × Nat) (l : List (Rat × Nat)) :
    x ∈ sortAsc l ↔ x ∈ l := by
  induction l with
  | nil => simp [sortAsc]
  | cons z t ih => simp [sortAsc, mem_insertAsc, ih]

/-- `insertAsc` preserves length. -/
theorem length_insertAsc (y : Rat × Nat) (l : List (Rat × Nat)) :
    (insertAsc y l).length = l.length + 1 := by
  induction l with
  | nil => simp [insertAsc]
  | cons z t ih =>
      unfold insertAsc
      split
      · simp
      · simp [ih]

/-- `sortAsc` preserves length. -/
theorem length_sortAsc (l : List (Rat × Nat)) : (sortAsc l).length = l.length := by
  induction l with
  | nil => simp [sortAsc]
  | cons z t ih => simp [sortAsc, length_insertAsc, ih]

/-- `insertAsc` preserves distance-sortedness. -/
theorem pairwise_insertAsc (y : Rat × Nat) (l : List (Rat × Nat))
    (h : List.Pairwise (fun a b : Rat × Nat => a.1 ≤ b.1) l) :
    List.Pairwise (fun a b : Rat × Nat => a.1 ≤ b.1) (insertAsc y l) := by
  induction l with
  | nil => simp [insertAsc]
  | cons z t ih =>
      rw [List.pairwise_cons] at h
      unfold insertAsc
      split
      · rename_i hle
        rw [List.pairwise_cons]
        refine ⟨?_, List.pairwise_cons.mpr h⟩
        intro a ha
        rcases List.mem_cons.mp ha with rfl | ha
        · exact hle
        · exact le_trans hle (h.1 a ha)
      · rename_i hgt
        rw [List.pairwise_cons]
        refine ⟨?_, ih h.2⟩
        intro a ha
        rcases (mem_insertAsc a y t).mp ha with rfl | ha
        · exact le_of_not_le hgt
        · exact h.1 a ha

/-- `sortAsc` sorts ascending by distance. -/
theorem pairwise_sortAsc (l : List (Rat × Nat)) :
    List.Pairwise (fun a b : Rat × Nat => a.1 ≤ b.1) (sortAsc l) := by
  induction l with
  | nil => simp [sortAsc]
  | cons z t ih => exact pairwise_insertAsc z (sortAsc t) ih

/-- Every distance returned by `searchIndex` is a squared-L2 distance to a
stored vector, hence nonnegative. -/
theorem searchIndex_dist_nonneg (stored : List Vec) (q : Vec) (k : Nat) :
    ∀ di ∈ searchIndex stored q k, 0 ≤ di.1 := by
  intro di hdi
  unfold searchIndex at hdi
  have hmem : di ∈ sortAsc (stored.enum.map (fun p => (l2sq q p.2, p.1))) :=
    List.mem_of_mem_take hdi
  rw [mem_sortAsc, List.mem_map] at hmem
  obtain ⟨p, _, hp⟩ := hmem
  rw [← hp]
  exact l2sq_nonneg q p.2

/-- Claim C4 as amended: `search` returns at most `min k n` results (never
more than the `n` stored items), ordered **nondecreasing** by distance
(strict ascent fails on equidistant stored items, see the
counterexample). -/
theorem c4_amended (stored : List Vec) (q : Vec) (k : Nat) :
    (searchIndex stored q k).length ≤ min k stored.length ∧
    (searchIndex stored q k).length ≤ stored.length ∧
    List.Pairwise (fun a b : Rat × Nat => a.1 ≤ b.1) (searchIndex stored q k) ∧
    ∀ (chunks : List StyleChunk),
      (matchedRulesFor chunks stored q k).length ≤ min k stored.length := by
  have hlen : (searchIndex stored q k).length ≤ min k stored.length := by
    unfold searchIndex
    rw [List.length_take, length_sortAsc, List.length_map, List.enum_length]
  refine ⟨hlen, le_trans hlen (min_le_right _ _), ?_, ?_⟩
  · unfold searchIndex
    exact (pairwise_sortAsc _).sublist (List.take_sublist _ _)
  · intro chunks
    exact le_trans (List.length_filterMap_le _ _) hlen

/-- The squared distance of the zero vectors (a computation helper). -/
theorem l2sq_zz : l2sq [0] [(0 : Rat)] = 0 := by simp [l2sq]

/-- `searchIndex` on a one-item index of the zero vector. -/
theorem searchIndex_single : searchIndex [[(0 : Rat)]] [0] 1 = [(0, 0)] := by
  unfold searchIndex
  simp [List.enum, List.enumFrom, l2sq_zz, sortAsc, insertAsc]

/-- `matchedRulesFor` on that index (a computation helper). -/
theorem matched_single :
    matchedRulesFor [⟨"c", "t", "s", ["ex"]⟩] [[0]] [0] 1 =
      [⟨"c", "t", "s", ["ex"], 1⟩] := by
  unfold matchedRulesFor
  rw [searchIndex_single]
  norm_num [List.filterMap]

/-- Claim C4 (strictly ascending distances): refuted.  With two identical
stored vectors both results of a `k = 3` query have distance `0`, so the
returned order is not strictly ascending. -/
theorem c4_counterexample :
    searchIndex [[(0 : Rat)], [0]] [0] 3 = [(0, 0), (0, 1)] ∧
    ¬ List.Pairwise (fun a b : Rat × Nat => a.1 < b.1)
        (searchIndex [[(0 : Rat)], [0]] [0] 3) := by
  have h : searchIndex [[(0 : Rat)], [0]] [0] 3 = [(0, 0), (0, 1)] := by
    unfold searchIndex
    simp [List.enum, List.enumFrom, l2sq_zz, sortAsc, insertAsc]
  refine ⟨h, ?_⟩
  rw [h]
  simp

/-- Claim C7: every chunk-based `CorrectionMatch` is built from an accepted
distance `d` with `0 ≤ d < 1.5` and carries
`confidence = 1 - d/2 = max 0 (1 - d/2)`, which lies in `[0, 1]`. -/
theorem c7_confidence (chunks : List StyleChunk) (stored : List Vec) (q : Vec) (k : Nat) :
    ∀ m ∈ matchedRulesFor chunks stored q k, ∃ d : Rat,
      0 ≤ d ∧ d < 3 / 2 ∧ m.confidence = 1 - d / 2 ∧
      m.confidence = max 0 (1 - d / 2) ∧ 0 ≤ m.confidence ∧ m.confidence ≤ 1 := by
  intro m hm
  unfold matchedRulesFor at hm
  rw [List.mem_filterMap] at hm
  obtain ⟨di, hdi, hf⟩ := hm
  have hd0 : 0 ≤ di.1 := searchIndex_dist_nonneg stored q k di hdi
  refine ⟨di.1, hd0, ?_, ?_⟩
  · by_contra hlt
    rcases h : chunks[di.2]? with _ | chunk <;> rw [h] at hf
    · exact Option.noConfusion hf
    · simp only [hlt, if_false] at hf
      exact Option.noConfusion hf
  · rcases h : chunks[di.2]? with _ | chunk <;> rw [h] at hf
    · exact absurd hf (Option.noConfusion)
    · by_cases hlt : di.1 < 3 / 2
      · simp only [hlt, if_true] at hf
        by_cases hex : chunk.examples = []
        · simp [hex] at hf
        · simp only [hex, if_false] at hf
          have hc : m.confidence = 1 - di.1 / 2 := by
            rw [← Option.some_inj.mp hf]
          refine ⟨hc, ?_, ?_, ?_⟩
          · rw [hc, max_eq_right] ; linarith
          · rw [hc] ; linarith
          · rw [hc] ; linarith
      · simp [hlt] at hf

/-- Witness for `c7_confidence` at a concrete one-chunk index. -/
theorem c7_confidence_witness : ∃ d : Rat,
    0 ≤ d ∧ d < 3 / 2 ∧
    (MatchedRule.mk "c" "t" "s" ["ex"] 1).confidence = 1 - d / 2 ∧
    (MatchedRule.mk "c" "t" "s" ["ex"] 1).confidence = max 0 (1 - d / 2) ∧
    0 ≤ (MatchedRule.mk "c" "t" "s" ["ex"] 1).confidence ∧
    (MatchedRule.mk "c" "t" "s" ["ex"] 1).confidence ≤ 1 :=
  c7_confidence [⟨"c", "t", "s", ["ex"]⟩] [[0]] [0] 1 ⟨"c", "t", "s", ["ex"], 1⟩
    (matched_single ▸ List.mem_singleton.mpr rfl)

/-! ### Claim C3: chunking -/

/-- Strings with equal character data are equal. -/
theorem strExt {a b : String} (h : a.data = b.data) : a = b := by
  cases a; cases b; simp_all

/-- `String.append` on character data. -/
theorem data_append (a b : String) : (a ++ b).data = a.data ++ b.data := rfl

/-- `foldl (++)` on character data. -/
theorem foldl_append_data : ∀ (l : List String) (init : String),
    (l.foldl (fun r s => r ++ s) init).data = init.data ++ (l.map String.data).flatten
  | [], init => by simp
  | a :: t, init => by
      simp only [List.foldl_cons, List.map_cons, List.flatten_cons]
      rw [foldl_append_data t (init ++ a), data_append, List.append_assoc]

/-- `String.join` on character data. -/
theorem join_data (l : List String) : (String.join l).data = (l.map String.data).flatten := by
  unfold String.join
  simpa using foldl_append_data l ""

/-- `String.join` of a cons. -/
theorem join_cons (a : String) (l : List String) :
    String.join (a :: l) = a ++ String.join l :=
  strExt (by simp [join_data, data_append])

/-- `String.join` of an append. -/
theorem join_append (l₁ l₂ : List String) :
    String.join (l₁ ++ l₂) = String.join l₁ ++ String.join l₂ :=
  strExt (by simp [join_data, data_append])

/-- `String.join` of a singleton. -/
theorem join_singleton (s : String) : String.join [s] = s :=
  strExt (by simp [join_data])

/-- String append is associative. -/
theorem str_append_assoc (a b c : String) : a ++ b ++ c = a ++ (b ++ c) :=
  strExt (by simp [data_append])

/-- Appending the empty string. -/
theorem str_append_empty (s : String) : s ++ "" = s :=
  strExt (by simp [data_append])

/-- Prepending the empty string. -/
theorem str_empty_append (s : String) : "" ++ s = s := rfl

/-- `String.join` of the empty list. -/
theorem join_nil : String.join [] = "" := rfl

/-- String length of an append. -/
theorem str_length_append (a b : String) : (a ++ b).length = a.length + b.length := by
  show (a.data ++ b.data).length = a.data.length + b.data.length
  simp

/-- The chunks of `chunkLoop` concatenate to the pending chunk plus the
remaining sentences. -/
theorem join_chunkLoop : ∀ (fs cc : List String) (n : Nat),
    String.join (chunkLoop fs cc n) = String.join cc ++ String.join fs
  | [], cc, n => by
      unfold chunkLoop
      split
      · rename_i h
        rw [h]
        rfl
      · simp [join_singleton, join_nil, str_append_empty]
  | f :: rest, cc, n => by
      unfold chunkLoop
      split
      · split
        · rename_i hcc
          rw [join_chunkLoop rest [f] f.length, hcc]
          simp [join_cons, join_nil, join_singleton, str_append_empty, str_empty_append]
        · rw [join_cons, join_chunkLoop rest [f] f.length]
          simp [join_cons, join_nil, join_singleton, str_append_empty, str_empty_append,
            str_append_assoc]
      · rw [join_chunkLoop rest (cc ++ [f]) (n + f.length), join_append, join_singleton,
          join_cons, str_append_assoc]

/-- Re-joining the sentence/delimiter pairs re-joins the pieces. -/
theorem pairUp_join : ∀ l : List String,
    String.join ((pairUp l).map (fun p => p.1 ++ p.2)) = String.join l
  | [] => rfl
  | [a] => by simp [pairUp, join_cons, str_append_empty]
  | a :: b :: rest => by
      simp only [pairUp, List.map_cons, join_cons]
      rw [pairUp_join rest, str_append_assoc]

/-- `splitKeep` never returns the empty list. -/
theorem splitKeep_ne_nil : ∀ l : List Char, splitKeep l ≠ []
  | [] => by simp [splitKeep]
  | c :: t => by
      unfold splitKeep
      split
      · simp
      · cases h : splitKeep t <;> simp

/-- The pieces of `splitKeep` flatten back to the original characters. -/
theorem splitKeep_flatten : ∀ l : List Char, (splitKeep l).flatten = l
  | [] => rfl
  | c :: t => by
      unfold splitKeep
      split
      · simpa using splitKeep_flatten t
      · cases h : splitKeep t with
        | nil => exact absurd h (splitKeep_ne_nil t)
        | cons p ps =>
            have ht := splitKeep_flatten t
            rw [h] at ht
            simp only [List.flatten_cons] at ht ⊢
            rw [List.cons_append, ht]

/-- Dropping a whitespace prefix does not change the non-whitespace filter. -/
theorem filter_dropWhileWS (l : List Char) :
    (l.dropWhile pyWS).filter (fun c => !pyWS c) = l.filter (fun c => !pyWS c) := by
  induction l with
  | nil => rfl
  | cons c t ih =>
      by_cases h : pyWS c
      · rw [List.dropWhile_cons]
        simp [h, List.filter_cons, ih]
      · rw [List.dropWhile_cons]
        simp [h, List.filter_cons]

/-- `str.strip()` does not change the non-whitespace filter. -/
theorem filter_stripL (l : List Char) :
    (stripL l).filter (fun c => !pyWS c) = l.filter (fun c => !pyWS c) := by
  unfold stripL
  rw [List.filter_reverse, filter_dropWhileWS, List.filter_reverse, filter_dropWhileWS,
    List.reverse_reverse]

/-- Removing the empty strings does not change the flattened data. -/
theorem flatten_filter_ne_empty (L : List String) :
    ((L.filter (fun s => s ≠ "")).map String.data).flatten = (L.map String.data).flatten := by
  induction L with
  | nil => rfl
  | cons s t ih =>
      simp only [ne_eq, decide_not] at ih ⊢
      by_cases h : s = ""
      · subst h
        simpa [List.filter_cons] using ih
      · simp [List.filter_cons, h, ih]

/-- Filtering distributes over `flatten`. -/
theorem filter_flatten (p : Char → Bool) : ∀ ll : List (List Char),
    ll.flatten.filter p = (ll.map (List.filter p)).flatten
  | [] => rfl
  | x :: t => by simp [List.filter_append, filter_flatten p t]

/-- The non-whitespace characters of the sentence pieces are those of the
original text. -/
theorem sentencePieces_filter (text : String) :
    ((sentencePieces text).map String.data).flatten.filter (fun c => !pyWS c)
      = text.data.filter (fun c => !pyWS c) := by
  unfold sentencePieces
  rw [flatten_filter_ne_empty, List.map_map]
  have hmap : (List.map (String.data ∘ fun l => String.mk (stripL l)) (splitKeep text.data))
      = List.map stripL (splitKeep text.data) := by
    simp [Function.comp]
  rw [hmap, filter_flatten]
  have hmap2 : List.map (List.filter (fun c => !pyWS c)) (List.map stripL (splitKeep text.data))
      = List.map (List.filter (fun c => !pyWS c)) (splitKeep text.data) := by
    rw [List.map_map]
    exact List.map_congr_left (fun l _ => filter_stripL l)
  rw [hmap2, ← filter_flatten, splitKeep_flatten]

/-- Claim C3, reconstruction half: the concatenation of the chunks equals
the original text once whitespace is ignored. -/
theorem chunk_text_reconstruct (text : String) :
    removeWS (String.join (chunk_text text)) = removeWS text := by
  unfold chunk_text removeWS
  apply congrArg String.mk
  rw [join_chunkLoop (fullSentences text) [] 0]
  have h0 : (String.join [] : String) = "" := rfl
  rw [h0]
  have h1 : ("" ++ String.join (fullSentences text)) = String.join (fullSentences text) := rfl
  rw [h1]
  unfold fullSentences
  rw [pairUp_join (sentencePieces text), join_data]
  exact sentencePieces_filter text

/-- Claim C3, size half: every chunk produced by the greedy loop either
fits in `chunk_size` or is a single (overlong) sentence. -/
theorem chunkLoop_size (FS : List String) : ∀ (fs cc : List String) (n : Nat),
    (∀ s ∈ fs, s ∈ FS) →
    n = (String.join cc).length →
    ((String.join cc).length ≤ chunk_size ∨ ∃ s ∈ FS, cc = [s]) →
    ∀ c ∈ chunkLoop fs cc n, c.length ≤ chunk_size ∨ (c ∈ FS ∧ chunk_size < c.length)
  | [], cc, n => by
      intro _ _ hinv c hc
      unfold chunkLoop at hc
      split at hc
      · simp at hc
      · rcases List.mem_singleton.mp hc with rfl
        rcases hinv with h | ⟨s, hs, rfl⟩
        · exact Or.inl h
        · rw [join_singleton]
          by_cases hlen : s.length ≤ chunk_size
          · exact Or.inl hlen
          · exact Or.inr ⟨hs, Nat.lt_of_not_le hlen⟩
  | f :: rest, cc, n => by
      intro hsub hn hinv c hc
      unfold chunkLoop at hc
      split at hc
      · split at hc
        · exact chunkLoop_size FS rest [f] f.length
            (fun s hs => hsub s (List.mem_cons_of_mem f hs))
            (by rw [join_singleton])
            (Or.inr ⟨f, hsub f (List.mem_cons_self f rest), rfl⟩) c hc
        · rcases List.mem_cons.mp hc with rfl | hc2
          · rcases hinv with h | ⟨s, hs, rfl⟩
            · exact Or.inl h
            · rw [join_singleton]
              by_cases hlen : s.length ≤ chunk_size
              · exact Or.inl hlen
              · exact Or.inr ⟨hs, Nat.lt_of_not_le hlen⟩
          · exact chunkLoop_size FS rest [f] f.length
              (fun s hs => hsub s (List.mem_cons_of_mem f hs))
              (by rw [join_singleton])
              (Or.inr ⟨f, hsub f (List.mem_cons_self f rest), rfl⟩) c hc2
      · rename_i hfit
        refine chunkLoop_size FS rest (cc ++ [f]) (n + f.length)
          (fun s hs => hsub s (List.mem_cons_of_mem f hs)) ?_ (Or.inl ?_) c hc
        · rw [join_append, join_singleton, str_length_append, ← hn]
        · rw [join_append, join_singleton, str_length_append, ← hn]
          exact Nat.le_of_not_lt hfit

/-- Claim C3: for every text the chunks of `chunk_text`, concatenated and
ignoring whitespace, reconstruct the text; and every chunk fits in the
500-character `chunk_size` unless it is a single sentence that alone
exceeds it. -/
theorem c3_chunking (text : String) :
    removeWS (String.join (chunk_text text)) = removeWS text ∧
    ∀ c ∈ chunk_text text, c.length ≤ chunk_size ∨
      (c ∈ fullSentences text ∧ chunk_size < c.length) := by
  refine ⟨chunk_text_reconstruct text, ?_⟩
  exact chunkLoop_size (fullSentences text) (fullSentences text) [] 0
    (fun s hs => hs) rfl (Or.inl (by decide))

/-- Witness for `c3_chunking` at a concrete text. -/
theorem c3_chunking_witness :
    removeWS (String.join (chunk_text "Hi. Bye")) = removeWS "Hi. Bye" ∧
    ("Hi.Bye".length ≤ chunk_size ∨
      ("Hi.Bye" ∈ fullSentences "Hi. Bye" ∧ chunk_size < "Hi.Bye".length)) :=
  ⟨(c3_chunking "Hi. Bye").1, (c3_chunking "Hi. Bye").2 "Hi.Bye" (by decide)⟩

/-! ### Claim C9: the lock-step invariant under ingestion -/

/-- A concrete embedder for the ingestion counterexample. -/
def c9embed : String → Vec := fun s => [(s.length : Rat)]

/-- A trivial concrete splitter (one chunk per section body). -/
def c9splitter : String → List String := fun s => [s]

/-- A first style-guide text (one section, body long enough to keep). -/
def c9textA : String :=
  "1. Section One\nThis section content is long enough to pass the fifty character filter."

/-- A second style-guide text, ingested after the first. -/
def c9textB : String :=
  "2. Section Two\nAnother section content that is also long enough to pass the filter!"

/-- The state after ingesting the first guide. -/
def c9st1 : GuideState := preprocess_pdf c9embed c9splitter ⟨[], []⟩ c9textA

/-- The state after ingesting the second guide on top of the first. -/
def c9st2 : GuideState := preprocess_pdf c9embed c9splitter c9st1 c9textB

/-- Claim C9 ("every ingestion step preserves the lock-step
correspondence"): refuted.  A first `preprocess_pdf` establishes lock-step,
but a second one *appends* to the vector index while *replacing* the chunk
list, leaving two stored vectors against one chunk — index position 1 no
longer refers to any chunk. -/
theorem c9_counterexample :
    lockstepChunks c9embed c9st1 ∧
    c9st2.stored.length = 2 ∧ c9st2.chunks.length = 1 ∧
    ¬ lockstepChunks c9embed c9st2 := by
  have h2 : c9st2.stored.length = 2 := by decide
  have h1 : c9st2.chunks.length = 1 := by decide
  refine ⟨rfl, h2, h1, ?_⟩
  intro h
  have hlen := congrArg List.length h
  rw [List.length_map, h2, h1] at hlen
  exact absurd hlen (by decide)

/-- Claim C9 as amended: `process_style_guide` re-establishes lock-step
whenever the flattened rule list is non-empty (it rebuilds the index from
scratch; an *empty* guide keeps the stale index), and `preprocess_pdf`
establishes lock-step only when the vector store starts empty — i.e. on
the first ingestion. -/
theorem c9_amended (embed : String → Vec) :
    (∀ (st : AppState) (rules : List (RuleCategory × List StyleRule)),
      rules.flatMap (fun p => p.2) ≠ [] →
      lockstepRules embed (process_style_guide embed st rules)) ∧
    (∀ (st : GuideState) (splitter : String → List String) (full_text : String),
      st.stored = [] →
      lockstepChunks embed (preprocess_pdf embed splitter st full_text)) := by
  constructor
  · intro st rules hne
    unfold process_style_guide lockstepRules
    have hmap : (rules.flatMap (fun p => p.2)).map
        (fun r => r.pattern ++ " " ++ r.replacement) ≠ [] := by
      simpa using hne
    simp only [hmap, if_false, List.map_map]
    rfl
  · intro st splitter full_text hst
    unfold preprocess_pdf lockstepChunks
    simp [hst]

/-- Witness for `c9_amended` at concrete ingestions. -/
theorem c9_amended_witness :
    lockstepRules c9embed (process_style_guide c9embed ⟨[], none⟩
      [(RuleCategory.DOMAIN, [⟨"id1", RuleCategory.DOMAIN, RuleType.DIRECT, "",
        "patient", "Subject", ["Subject"], []⟩])]) ∧
    lockstepChunks c9embed (preprocess_pdf c9embed c9splitter ⟨[], []⟩ c9textA) :=
  ⟨(c9_amended c9embed).1 ⟨[], none⟩ _ (by decide),
   (c9_amended c9embed).2 ⟨[], []⟩ c9splitter c9textA rfl⟩

/-! ### Claim C10: `apply_style_rules` changes nothing unless an example
differs from its matched span -/

/-- Membership through `insertDesc`. -/
theorem mem_insertDesc (x y : Nat × MatchedRule) (l : List (Nat × MatchedRule)) :
    x ∈ insertDesc y l ↔ x = y ∨ x ∈ l := by
  induction l with
  | nil => simp [insertDesc]
  | cons z t ih =>
      unfold insertDesc
      split
      · simp
      · simp [ih]
        tauto

/-- Membership through `sortByPosDesc`. -/
theorem mem_sortByPosDesc (x : Nat × MatchedRule) (l : List (Nat × MatchedRule)) :
    x ∈ sortByPosDesc l ↔ x ∈ l := by
  induction l with
  | nil => simp [sortByPosDesc]
  | cons z t ih => simp [sortByPosDesc, mem_insertDesc, ih]

/-- The application loop, started on the untouched text, can only flip
`has_changes` if some listed rule's first example differs (case-insensitively,
after stripping) from the span it matches in the text. -/
theorem applyLoop_flip (text : String) (rules : List MatchedRule) :
    ∀ l : List (Nat × MatchedRule), (∀ pr ∈ l, pr.2 ∈ rules) →
    (l.foldl applyRuleStep (text, false)).2 = true →
    ∃ r ∈ rules, ∃ e0 es, r.examples = e0 :: es ∧ ∃ mp,
      findLowerS text r.rule = some mp ∧
      lowerStr (stripS ⟨(text.data.drop mp).take r.rule.length⟩) ≠ lowerStr (stripS e0)
  | [], _, hflip => absurd hflip (by simp)
  | pr :: t, hmem, hflip => by
      rcases hfind : findLowerS text pr.2.rule with _ | mp
      · have hstep : applyRuleStep (text, false) pr = (text, false) := by
          unfold applyRuleStep
          rw [hfind]
        rw [List.foldl_cons, hstep] at hflip
        exact applyLoop_flip text rules t (fun q hq => hmem q (List.mem_cons_of_mem pr hq))
          hflip
      · rcases hex : pr.2.examples with _ | ⟨e0, es⟩
        · have hstep : applyRuleStep (text, false) pr = (text, false) := by
            unfold applyRuleStep
            rw [hfind, hex]

          rw [List.foldl_cons, hstep] at hflip
          exact applyLoop_flip text rules t
            (fun q hq => hmem q (List.mem_cons_of_mem pr hq)) hflip
        · by_cases heq : lowerStr (stripS ⟨(text.data.drop mp).take pr.2.rule.length⟩)
              = lowerStr (stripS e0)
          · have hstep : applyRuleStep (text, false) pr = (text, false) := by
              unfold applyRuleStep
              rw [hfind, hex]
              simp only [heq, if_true]
            rw [List.foldl_cons, hstep] at hflip
            exact applyLoop_flip text rules t
              (fun q hq => hmem q (List.mem_cons_of_mem pr hq)) hflip
          · exact ⟨pr.2, hmem pr (List.mem_cons_self pr t), e0, es, hex, mp, hfind, heq⟩

/-- Claim C10: `apply_style_rules` returns the text unchanged unless some
matched rule's first example differs (case-insensitively, after stripping)
from the span of the text it matches; in particular a rule whose example
equals the matched text never alters the output. -/
theorem c10_unchanged_unless_differs (text : String) (rules : List MatchedRule)
    (h : apply_style_rules text rules ≠ text) :
    ∃ r ∈ rules, ∃ e0 es, r.examples = e0 :: es ∧ ∃ mp,
      findLowerS text r.rule = some mp ∧
      lowerStr (stripS ⟨(text.data.drop mp).take r.rule.length⟩) ≠ lowerStr (stripS e0) := by
  by_cases hres : ((sortByPosDesc (rules.filterMap (fun r =>
      (findLowerS text r.rule).map (fun p => (p, r))))).foldl
        applyRuleStep (text, false)).2 = true
  · refine applyLoop_flip text rules _ ?_ hres
    intro pr hpr
    rw [mem_sortByPosDesc, List.mem_filterMap] at hpr
    obtain ⟨r, hr, hmap⟩ := hpr
    rcases hfind : findLowerS text r.rule with _ | p <;> rw [hfind] at hmap
    · exact Option.noConfusion hmap
    · have h2 : (p, r) = pr := Option.some.inj hmap
      rw [← h2]
      exact hr
  · exfalso
    apply h
    show (if ((sortByPosDesc (rules.filterMap (fun r =>
        (findLowerS text r.rule).map (fun p => (p, r))))).foldl
          applyRuleStep (text, false)).2 = true then
        ((sortByPosDesc (rules.filterMap (fun r =>
          (findLowerS text r.rule).map (fun p => (p, r))))).foldl
            applyRuleStep (text, false)).1
      else text) = text
    rw [if_neg hres]

/-- Witness for `c10_unchanged_unless_differs`: the spec §8 end-to-end
example rule `"patient" → example "Subject"` on
`"The patient was enrolled."`. -/
theorem c10_witness :
    ∃ r ∈ [MatchedRule.mk "patient" "general" "S" ["Subject"] 1], ∃ e0 es,
      r.examples = e0 :: es ∧ ∃ mp,
      findLowerS "The patient was enrolled." r.rule = some mp ∧
      lowerStr (stripS ⟨(("The patient was enrolled." : String).data.drop mp).take
        r.rule.length⟩) ≠ lowerStr (stripS e0) :=
  c10_unchanged_unless_differs "The patient was enrolled."
    [MatchedRule.mk "patient" "general" "S" ["Subject"] 1] (by decide)

end StyleRepo
